import Mathlib

/-!
Shallow embedding of the TaaSLMM workflow engine, used to check the
natural-language specification against the code.

The definitions below are transcribed from:
* `mcp-framework/mcp_framework/server/workflow_executor.py`
  (`WorkflowExecutor._topological_sort`, `execute_streaming`, `_execute_node`)
* `E:.../mcp_framework/server/mcp_gateway.py` (`execute_workflow.event_stream`)
* `taas_server/tasks/task_registry.py`
  (`get_combined_input_schema`, `collect_schemas`, `get_pipeline_schema`,
   `_is_output_from_dependency`)
* `taas_server/tasks/pipeline_graph.py` (`PipelineGraph.resolve_node_inputs`)
* `taas_server/tasks/base_task.py` (`BaseTask.run`)
* `taas_server/core/state_manager.py` (`StateManager.recover_from_last_session`)

Python dictionaries are modelled as association lists in insertion order:
assignment on an existing key updates in place, on a fresh key appends.
-/

instance {ε α : Type} [DecidableEq ε] [DecidableEq α] : DecidableEq (Except ε α)
  | Except.error x, Except.error y =>
    match decEq x y with
    | isTrue h => isTrue (congrArg Except.error h)
    | isFalse h => isFalse (fun hc => h (Except.error.inj hc))
  | Except.error _, Except.ok _ => isFalse (fun hc => Except.noConfusion hc)
  | Except.ok _, Except.error _ => isFalse (fun hc => Except.noConfusion hc)
  | Except.ok x, Except.ok y =>
    match decEq x y with
    | isTrue h => isTrue (congrArg Except.ok h)
    | isFalse h => isFalse (fun hc => h (Except.ok.inj hc))

/-- JSON-like scalar values carried through tool inputs and outputs. -/
inductive JVal where
  | jnull : JVal
  | jbool : Bool → JVal
  | jnum : Int → JVal
  | jstr : String → JVal
deriving Repr, DecidableEq

/-- A Python dict with string keys, in insertion order. -/
abbrev Dict (α : Type) := List (String × α)

/-- `d[k]` lookup: first binding wins (keys are unique in a real dict). -/
def dget {α : Type} (d : Dict α) (k : String) : Option α :=
  (d.find? (fun p => p.1 == k)).map Prod.snd

/-- `k in d` membership test. -/
def dmem {α : Type} (d : Dict α) (k : String) : Bool :=
  (dget d k).isSome

/-- `d[k] = v` assignment: update in place if the key exists, else append. -/
def dset {α : Type} (d : Dict α) (k : String) (v : α) : Dict α :=
  if dmem d k then d.map (fun p => if p.1 == k then (k, v) else p)
  else d ++ [(k, v)]

/-- Split a character list at its first dot, if any. -/
def splitAtFirstDot : List Char → Option (List Char × List Char)
  | [] => none
  | c :: rest =>
    if c = '.' then some ([], rest)
    else
      match splitAtFirstDot rest with
      | none => none
      | some pr => some (c :: pr.1, pr.2)

/-- `source_key.split(".", 1)` guarded by `"." in source_key`: `none` when
the key has no dot, else the parts before and after the first dot. -/
def splitDot (s : String) : Option (String × String) :=
  match splitAtFirstDot s.toList with
  | none => none
  | some pr => some (String.mk pr.1, String.mk pr.2)

/-! ## Workflow DAG payloads (`execute_streaming`'s `dag` argument) -/

/-- One node of the workflow DAG.  `inputs = none` models a node dict with no
`"inputs"` key at all (so `node.get("inputs", {})` yields a fresh dict),
while `inputs = some m` models an explicit `"inputs": m` entry. -/
structure WNode where
  id : String
  tool : String
  inputs : Option (Dict JVal)
  input_mappings : Dict String
deriving Repr, DecidableEq

/-- An explicit ordering edge of the DAG (`{"from": src, "to": dst}`). -/
structure WEdge where
  src : String
  dst : String
deriving Repr, DecidableEq

/-- The workflow DAG request payload. -/
structure WDag where
  nodes : List WNode
  edges : List WEdge
deriving Repr, DecidableEq

/-- Keys of `{node["id"]: node for node in dag.get("nodes", [])}` in
insertion order (duplicates keep their first position). -/
def dagIds (dag : WDag) : List String :=
  (dag.nodes.map (fun n => n.id)).eraseDups

/-- Initial `in_degree` dict: every node id maps to `0`. -/
def initDeg (ids : List String) : Dict Int :=
  ids.map (fun i => (i, (0 : Int)))

/-- Initial `adjacency` dict: every node id maps to `[]`. -/
def initAdj (ids : List String) : Dict (List String) :=
  ids.map (fun i => (i, ([] : List String)))

/-- Process one edge: `adjacency[from].append(to); in_degree[to] += 1`.
An endpoint that is not a node id raises `KeyError`. -/
def addEdge (st : Dict Int × Dict (List String)) (e : WEdge) :
    Except String (Dict Int × Dict (List String)) :=
  match dget st.2 e.src with
  | none => Except.error ("KeyError: " ++ e.src)
  | some lst =>
    let adj := dset st.2 e.src (lst ++ [e.dst])
    match dget st.1 e.dst with
    | none => Except.error ("KeyError: " ++ e.dst)
    | some d => Except.ok (dset st.1 e.dst (d + 1), adj)

/-- Inner loop of Kahn's algorithm: decrement the in-degree of every
neighbour of every node in `current`, collecting the next batch. -/
def kahnStep (adj : Dict (List String)) (deg : Dict Int) (current : List String) :
    Dict Int × List String :=
  current.foldl
    (fun (st : Dict Int × List String) nid =>
      ((dget adj nid).getD []).foldl
        (fun (st2 : Dict Int × List String) nb =>
          match dget st2.1 nb with
          | none => st2
          | some d =>
            let d2 := d - 1
            (dset st2.1 nb d2, if d2 == 0 then st2.2 ++ [nb] else st2.2))
        st)
    (deg, [])

/-- The `while current_batch:` loop, with enough fuel to terminate
(the loop runs at most once per node). -/
def kahnLoop (adj : Dict (List String)) :
    Nat → Dict Int → List String → List (List String) × Dict Int
  | _, deg, [] => ([], deg)
  | 0, deg, current => ([current], deg)
  | fuel + 1, deg, current =>
    let st := kahnStep adj deg current
    let rest := kahnLoop adj fuel st.1 st.2
    (current :: rest.1, rest.2)

/-- `WorkflowExecutor._topological_sort`: Kahn's algorithm over the node ids
and the explicit `edges` list, returning parallel batches, or an error for
unknown edge endpoints (`KeyError`) and cycles. -/
def topologicalSort (dag : WDag) : Except String (List (List String)) :=
  let ids := dagIds dag
  match dag.edges.foldlM addEdge (initDeg ids, initAdj ids) with
  | Except.error e => Except.error e
  | Except.ok st =>
    let current := (st.1.filter (fun p => p.2 == 0)).map (fun p => p.1)
    let res := kahnLoop st.2 (ids.length + 1) st.1 current
    if (res.2.map (fun p => p.2)).sum > 0 then
      Except.error "Workflow DAG contains cycles"
    else
      Except.ok res.1

example : topologicalSort
    { nodes := [⟨"x", "t", none, []⟩, ⟨"y", "t", none, []⟩],
      edges := [⟨"x", "y"⟩, ⟨"y", "x"⟩] } =
    Except.error "Workflow DAG contains cycles" := by decide

example : topologicalSort
    { nodes := [⟨"a", "t", none, []⟩, ⟨"b", "t", none, []⟩, ⟨"c", "t", none, []⟩],
      edges := [⟨"a", "b"⟩, ⟨"b", "c"⟩] } =
    Except.ok [["a"], ["b"], ["c"]] := by decide

/-! ## Node runner (`WorkflowExecutor._execute_node`) -/

/-- A registered tool, as the executor sees it: an opaque `execute` operation
plus the declared output schema from its contract (which `_execute_node`
never consults). -/
structure Tool where
  execute : Dict JVal → Except String (Dict JVal)
  output_schema_required : List String
  output_schema_properties : Dict String

/-- The executor's tool registry: name to tool. -/
abbrev ToolReg := List (String × Tool)

/-- Final state of a persisted `ToolExecution` row. -/
structure ToolExecRec where
  tool_name : String
  inputs : Dict JVal
  status : String
  outputs : Option (Dict JVal)
  error_message : Option String
deriving Repr, DecidableEq

/-- Per-node results held in `intermediate_results` (node id to outputs). -/
abbrev Results := List (String × Dict JVal)

/-- The input-resolution loop of `_execute_node`: for each
`"<src>.<field>" -> target` mapping, copy the upstream value into `inputs`
when the upstream node has results and the field is present; otherwise the
mapping is skipped with no effect. -/
def resolveMappings (mappings : Dict String) (inputs : Dict JVal)
    (results : Results) : Dict JVal :=
  mappings.foldl
    (fun ins p =>
      match splitDot p.1 with
      | none => ins
      | some sk =>
        match dget results sk.1 with
        | none => ins
        | some srcRes =>
          match dget srcRes sk.2 with
          | none => ins
          | some v => dset ins p.2 v)
    inputs

/-- Replace the first node with the given id (Python mutates the one object
returned by `next(...)`). -/
def updateFirst (nodes : List WNode) (node_id : String) (f : WNode → WNode) :
    List WNode :=
  match nodes with
  | [] => []
  | n :: rest =>
    if n.id == node_id then f n :: rest else n :: updateFirst rest node_id f

/-- Outcome of one `_execute_node` call: the (possibly mutated) node list,
the `ToolExecution` rows it created, and the value returned or the exception
raised. -/
structure NodeRun where
  nodes : List WNode
  recs : List ToolExecRec
  outcome : Except String (Dict JVal)
deriving Repr

/-- `WorkflowExecutor._execute_node`.  Because `inputs = node.get("inputs", {})`
aliases the node's own dict, resolution mutates the caller's node exactly when
the node dict carries an `"inputs"` key. -/
def executeNode (reg : ToolReg) (nodes : List WNode) (node_id : String)
    (results : Results) : NodeRun :=
  match nodes.find? (fun n => n.id == node_id) with
  | none =>
    { nodes := nodes, recs := [],
      outcome := Except.error ("Node " ++ node_id ++ " not found in DAG") }
  | some node =>
    let resolved := resolveMappings node.input_mappings (node.inputs.getD []) results
    let nodes2 :=
      match node.inputs with
      | none => nodes
      | some _ => updateFirst nodes node_id (fun n => { n with inputs := some resolved })
    match dget reg node.tool with
    | none =>
      { nodes := nodes2,
        recs := [{ tool_name := node.tool, inputs := resolved, status := "FAILED",
                   outputs := none,
                   error_message := some ("Tool " ++ node.tool ++ " not found") }],
        outcome := Except.error ("Tool " ++ node.tool ++ " not found") }
    | some tool =>
      match tool.execute resolved with
      | Except.ok out =>
        { nodes := nodes2,
          recs := [{ tool_name := node.tool, inputs := resolved, status := "COMPLETED",
                     outputs := some out, error_message := none }],
          outcome := Except.ok out }
      | Except.error e =>
        { nodes := nodes2,
          recs := [{ tool_name := node.tool, inputs := resolved, status := "FAILED",
                     outputs := none, error_message := some e }],
          outcome := Except.error e }

/-! ## Workflow engine (`WorkflowExecutor.execute_streaming`) -/

/-- Events yielded to the caller.  `progress` of `node_completed` is the pair
`completed_nodes / total_nodes`. -/
inductive Event where
  | start : String → Nat → Event
  | node_completed : String → Nat → Nat → Dict JVal → Event
  | node_failed : String → String → Event
  | workflow_completed : String → Results → Event
  | workflow_failed : String → String → Event
  | complete : Event
deriving Repr, DecidableEq

/-- Run every node of one batch against the same pre-batch `results` snapshot
(`asyncio.gather` finishes them all before the zip loop inspects anything). -/
def runBatch (reg : ToolReg) (batch : List String) (nodes : List WNode)
    (results : Results) :
    List WNode × List ToolExecRec × List (String × Except String (Dict JVal)) :=
  match batch with
  | [] => (nodes, [], [])
  | nid :: rest =>
    let r := executeNode reg nodes nid results
    let rec2 := runBatch reg rest r.nodes results
    (rec2.1, r.recs ++ rec2.2.1, (nid, r.outcome) :: rec2.2.2)

/-- Result of the zip loop over one batch. -/
structure ZipOut where
  evs : List Event
  results : Results
  completed : Nat
  failed : Bool
deriving Repr

/-- The `for node_id, result in zip(batch, batch_results):` loop: store each
success and emit `node_completed`, but stop at the first exception with a
single `node_failed` event.  Returns the events, the updated result map, the
new completed count, and whether a failure was hit. -/
def processZip (wid : String) :
    List (String × Except String (Dict JVal)) → Results → Nat → Nat → ZipOut
  | [], results, completed, _ =>
    { evs := [], results := results, completed := completed, failed := false }
  | (nid, Except.error e) :: _, results, completed, _ =>
    { evs := [Event.node_failed nid e], results := results,
      completed := completed, failed := true }
  | (nid, Except.ok v) :: rest, results, completed, total =>
    let r := processZip wid rest (dset results nid v) (completed + 1) total
    { r with evs := Event.node_completed nid (completed + 1) total v :: r.evs }

/-- Everything `execute_streaming` leaves behind: the events it yielded, the
sequence of statuses persisted into the `WorkflowExecution` row, the
`ToolExecution` rows, the node dicts of the caller's DAG after execution, the
final result map, and which nodes were dispatched to `_execute_node`. -/
structure ExecResult where
  events : List Event
  wtrace : List String
  recs : List ToolExecRec
  finalNodes : List WNode
  results : Results
  started : List String
deriving Repr

/-- Output of the batch loop: everything after the `start` event. -/
structure RunOut where
  events : List Event
  wtrace : List String
  recs : List ToolExecRec
  nodes : List WNode
  results : Results
  started : List String
  failed : Bool
deriving Repr

/-- The batch loop of `execute_streaming`: one batch at a time, stopping at
the first failed node (persisting `FAILED`), or persisting `COMPLETED` and
emitting `workflow_completed` after the last batch. -/
def runBatches (wid : String) (reg : ToolReg) (total : Nat) :
    List (List String) → List WNode → Results → Nat → RunOut
  | [], nodes, results, _ =>
    { events := [Event.workflow_completed wid results], wtrace := ["COMPLETED"],
      recs := [], nodes := nodes, results := results, started := [],
      failed := false }
  | b :: rest, nodes, results, completed =>
    let br := runBatch reg b nodes results
    let pz := processZip wid br.2.2 results completed total
    if pz.failed then
      { events := pz.evs, wtrace := ["FAILED"], recs := br.2.1, nodes := br.1,
        results := pz.results, started := b, failed := true }
    else
      let r := runBatches wid reg total rest br.1 pz.results pz.completed
      { events := pz.evs ++ r.events, wtrace := r.wtrace,
        recs := br.2.1 ++ r.recs, nodes := r.nodes, results := r.results,
        started := b ++ r.started, failed := r.failed }

/-- `WorkflowExecutor.execute_streaming`.  The `WorkflowExecution` row is
created with status `RUNNING` *before* `_topological_sort` runs; a validation
error is caught by the outer handler, which updates the row to `FAILED` and
yields a single `workflow_failed` event.  `wid` stands for the generated
`workflow_id`. -/
def executeStreaming (wid : String) (reg : ToolReg) (dag : WDag) : ExecResult :=
  match topologicalSort dag with
  | Except.error e =>
    { events := [Event.workflow_failed wid e], wtrace := ["RUNNING", "FAILED"],
      recs := [], finalNodes := dag.nodes, results := [], started := [] }
  | Except.ok batches =>
    let total := (batches.map List.length).sum
    let r := runBatches wid reg total batches dag.nodes [] 0
    { events := Event.start wid total :: r.events,
      wtrace := "RUNNING" :: r.wtrace, recs := r.recs, finalNodes := r.nodes,
      results := r.results, started := r.started }

/-- `execute_workflow.event_stream` in the gateway: forward every executor
event, then append the final `complete` event. -/
def gatewayEvents (wid : String) (reg : ToolReg) (dag : WDag) : List Event :=
  (executeStreaming wid reg dag).events ++ [Event.complete]

/-! ## Task registry schema composition (`taas_server/tasks/task_registry.py`) -/

/-- A JSON-Schema object as handled by the registry: `properties` maps a
property name to its (otherwise opaque) property schema, `required` lists
required property names. -/
structure TSchema where
  properties : Dict JVal
  required : List String
deriving Repr, DecidableEq

/-- The class-level data of a registered `BaseTask` subclass that the schema
composer reads. -/
structure TaskDef where
  input_schema : TSchema
  output_mappings : Dict String
  dependencies : List String
deriving Repr, DecidableEq

/-- The task registry's `_tasks` dict: task name to task class. -/
abbrev TaskReg := List (String × TaskDef)

/-- `TaskRegistry._is_output_from_dependency`: is `param` a value of some
dependency's `output_mappings`?  Unregistered dependencies are skipped. -/
def isOutputFromDependency (reg : TaskReg) (param : String)
    (dependencies : List String) : Bool :=
  dependencies.any (fun d =>
    match dget reg d with
    | none => false
    | some cls => cls.output_mappings.any (fun kv => kv.2 == param))

/-- Mutable state shared by the `collect_schemas` closure. -/
structure CollectState where
  props : Dict JVal
  reqd : List String
  visited : List String
deriving Repr, DecidableEq

/-- `collect_schemas(dep_name, depth)` of `get_combined_input_schema`.
The fuel argument is `11 - depth`: Python raises as soon as `depth > 10`,
already-visited names return immediately, and `topDeps` is the *top-level*
task's dependency list captured by the closure. -/
def collectSchemas (reg : TaskReg) (topDeps : List String) :
    Nat → String → CollectState → Except String CollectState
  | 0, _, _ => Except.error "Dependency chain too deep (possible cycle)"
  | fuel + 1, depName, st =>
    if st.visited.contains depName then Except.ok st
    else
      let st1 := { st with visited := st.visited ++ [depName] }
      match dget reg depName with
      | none => Except.error ("Dependency task " ++ depName ++ " not found")
      | some cls =>
        match cls.dependencies.foldlM
            (fun s d => collectSchemas reg topDeps fuel d s) st1 with
        | Except.error e => Except.error e
        | Except.ok st2 =>
          Except.ok (cls.input_schema.properties.foldl
            (fun s p =>
              if isOutputFromDependency reg p.1 topDeps then s
              else
                { s with
                  props := dset s.props p.1 p.2,
                  reqd :=
                    if cls.input_schema.required.contains p.1
                        && !(s.reqd.contains p.1) then
                      s.reqd ++ [p.1]
                    else s.reqd })
            st2)

/-- `TaskRegistry.get_combined_input_schema`. -/
def getCombinedInputSchema (reg : TaskReg) (task_name : String)
    (as_pipeline : Bool) : Except String TSchema :=
  match dget reg task_name with
  | none => Except.error ("Task " ++ task_name ++ " not found")
  | some cls =>
    if !as_pipeline || cls.dependencies.isEmpty then
      Except.ok cls.input_schema
    else
      match cls.dependencies.foldlM
          (fun s d => collectSchemas reg cls.dependencies 11 d s)
          { props := [], reqd := [], visited := [] } with
      | Except.error e => Except.error e
      | Except.ok st => Except.ok { properties := st.props, required := st.reqd }

/-- The first-pass loop of `get_pipeline_schema`, with its accumulated
`all_outputs`: each task contributes its `output_mappings` values, and an
unregistered task raises. -/
def allOutputsAux (reg : TaskReg) (acc : List String) :
    List String → Except String (List String)
  | [] => Except.ok acc
  | n :: rest =>
    match dget reg n with
    | none => Except.error ("Task " ++ n ++ " not found")
    | some cls =>
      allOutputsAux reg (acc ++ cls.output_mappings.map Prod.snd) rest

/-- First pass of `get_pipeline_schema`: `all_outputs`, the union of every
task's `output_mappings` values (an unregistered task raises). -/
def allOutputs (reg : TaskReg) (task_names : List String) :
    Except String (List String) :=
  allOutputsAux reg [] task_names

/-- One property step of the second pass of `get_pipeline_schema`: keep the
property only if it is not an output of some pipeline task and not yet
accumulated, carrying `required` membership over when it is kept. -/
def secondPassStep (outs : List String) (cls : TaskDef)
    (a : Dict JVal × List String) (p : String × JVal) :
    Dict JVal × List String :=
  if outs.contains p.1 then a
  else if dmem a.1 p.1 then a
  else (a.1 ++ [(p.1, p.2)],
        if cls.input_schema.required.contains p.1 then a.2 ++ [p.1] else a.2)

/-- Second pass of `get_pipeline_schema`, folded over the pipeline's tasks. -/
def pipelineSecondPass (reg : TaskReg) (task_names : List String)
    (outs : List String) : Dict JVal × List String :=
  task_names.foldl
    (fun acc n =>
      match dget reg n with
      | none => acc
      | some cls =>
        cls.input_schema.properties.foldl (secondPassStep outs cls) acc)
    ([], [])

/-- `TaskRegistry.get_pipeline_schema`. -/
def getPipelineSchema (reg : TaskReg) (task_names : List String) :
    Except String TSchema :=
  match allOutputs reg task_names with
  | Except.error e => Except.error e
  | Except.ok outs =>
    let acc := pipelineSecondPass reg task_names outs
    Except.ok { properties := acc.1, required := acc.2 }

/-! ## Pipeline graph input resolution (`taas_server/tasks/pipeline_graph.py`) -/

/-- A `PipelineNode` with the fields `resolve_node_inputs` reads. -/
structure PNode where
  node_id : String
  task_name : String
  inputs : Dict JVal
  input_mappings : Dict String
  status : String
  outputs : Dict JVal
deriving Repr, DecidableEq

/-- A `PipelineGraph` as `resolve_node_inputs` sees it (`nodes` is the
`node_id -> PipelineNode` dict, `global_inputs` the user-level inputs). -/
structure PGraph where
  nodes : List (String × PNode)
  global_inputs : Dict JVal
deriving Repr, DecidableEq

/-- `PipelineGraph.resolve_node_inputs`: static inputs, then global inputs
for keys not already present, then mapped inputs from upstream nodes —
raising when the upstream node is missing, not `COMPLETED`, or lacks the
referenced output key. -/
def resolveNodeInputs (g : PGraph) (node_id : String) :
    Except String (Dict JVal) :=
  match dget g.nodes node_id with
  | none => Except.error ("KeyError: " ++ node_id)
  | some node =>
    let base := g.global_inputs.foldl
      (fun acc kv => if dmem acc kv.1 then acc else dset acc kv.1 kv.2)
      node.inputs
    node.input_mappings.foldlM
      (fun acc mp =>
        match splitDot mp.1 with
        | none => Except.ok acc
        | some sk =>
          match dget g.nodes sk.1 with
          | none => Except.error ("Upstream node " ++ sk.1 ++ " not found")
          | some upNode =>
            if upNode.status != "COMPLETED" then
              Except.error ("Upstream node " ++ sk.1 ++ " not completed")
            else
              match dget upNode.outputs sk.2 with
              | none =>
                Except.error ("Output key " ++ sk.2 ++ " not found in " ++ sk.1)
              | some v => Except.ok (dset acc mp.2 v))
      base

/-! ## Base task run (`taas_server/tasks/base_task.py`) -/

/-- The `"type"` tag `jsonschema` assigns to a scalar instance, compared with
a property schema's declared type.  This models the `jsonschema.validate`
calls of `BaseTask.validate_inputs` / `validate_outputs` on the schema
fragment the tasks use (an object schema with typed properties and a
`required` list). -/
def jvalHasType : JVal → String → Bool
  | JVal.jnull, "null" => true
  | JVal.jbool _, "boolean" => true
  | JVal.jnum _, "integer" => true
  | JVal.jnum _, "number" => true
  | JVal.jstr _, "string" => true
  | _, _ => false

/-- An object schema with per-property declared types, the fragment of
JSON-Schema that `BaseTask` subclasses declare. -/
structure OSchema where
  properties : Dict String
  required : List String
deriving Repr, DecidableEq

/-- `jsonschema.validate(instance, schema)` on that fragment: every required
property present, every declared property type-correct; extra properties are
allowed. -/
def validatesAgainst (v : Dict JVal) (s : OSchema) : Bool :=
  s.required.all (fun r => dmem v r)
    && v.all (fun kv =>
      match dget s.properties kv.1 with
      | some ty => jvalHasType kv.2 ty
      | none => true)

/-- Observable outcome of `BaseTask.run`: the task object's final `status`
and `error_message`, its stored `outputs`, and the returned value or raised
exception. -/
structure TaskRunResult where
  status : String
  error_message : Option String
  outputs : Dict JVal
  result : Except String (Dict JVal)
deriving Repr, DecidableEq

/-- `BaseTask.run`: validate inputs (raising *before* the status changes from
`PENDING`), execute, validate outputs (a violation raises, is caught, and
flips the status to `FAILED`), else record `COMPLETED` with the outputs. -/
def baseTaskRun (input_schema output_schema : OSchema)
    (execute : Dict JVal → Except String (Dict JVal))
    (inputs : Dict JVal) : TaskRunResult :=
  if validatesAgainst inputs input_schema = false then
    { status := "PENDING", error_message := none, outputs := [],
      result := Except.error "Input validation failed" }
  else
    match execute inputs with
    | Except.error e =>
      { status := "FAILED", error_message := some e, outputs := [],
        result := Except.error e }
    | Except.ok outs =>
      if validatesAgainst outs output_schema = false then
        { status := "FAILED", error_message := some "Output validation failed",
          outputs := [], result := Except.error "Output validation failed" }
      else
        { status := "COMPLETED", error_message := none, outputs := outs,
          result := Except.ok outs }

/-! ## Recovery coordinator (`taas_server/core/state_manager.py`) -/

/-- A persisted `Task` row, with the columns recovery touches. -/
structure TaskRow where
  id : String
  task_name : String
  status : String
  error_message : Option String
deriving Repr, DecidableEq

/-- A persisted `Pipeline` row.  The `Pipeline` model declares *no*
`error_message` column, so none is modelled. -/
structure PipelineRow where
  id : String
  pipeline_name : String
  status : String
deriving Repr, DecidableEq

/-- The database as the recovery coordinator sees it. -/
structure TDb where
  tasks : List TaskRow
  pipelines : List PipelineRow
deriving Repr, DecidableEq

/-- Recovery of one `Task` row: rows in `RUNNING` or `QUEUED` are marked
`PENDING` with the restart message; every other row is untouched. -/
def recoverTask (t : TaskRow) : TaskRow :=
  if t.status == "RUNNING" || t.status == "QUEUED" then
    { t with status := "PENDING",
             error_message := some "Task interrupted by server restart" }
  else t

/-- Recovery of one `Pipeline` row: rows in `RUNNING` or `QUEUED` are marked
`PENDING`; no error message exists to set. -/
def recoverPipeline (p : PipelineRow) : PipelineRow :=
  if p.status == "RUNNING" || p.status == "QUEUED" then
    { p with status := "PENDING" }
  else p

/-- `StateManager.recover_from_last_session`: a pure sweep over the stored
rows; it updates statuses and returns, spawning no execution work. -/
def recoverFromLastSession (db : TDb) : TDb :=
  { tasks := db.tasks.map recoverTask,
    pipelines := db.pipelines.map recoverPipeline }

/-! ## Event classifiers and counters -/

def isStart : Event → Bool
  | Event.start _ _ => true
  | _ => false

def isComplete : Event → Bool
  | Event.complete => true
  | _ => false

def isNodeCompleted : Event → Bool
  | Event.node_completed _ _ _ _ => true
  | _ => false

def isNodeFailed : Event → Bool
  | Event.node_failed _ _ => true
  | _ => false

def isWorkflowCompleted : Event → Bool
  | Event.workflow_completed _ _ => true
  | _ => false

def isWorkflowFailed : Event → Bool
  | Event.workflow_failed _ _ => true
  | _ => false

/-- Number of events in a stream satisfying a classifier. -/
def countEv (p : Event → Bool) (es : List Event) : Nat :=
  (es.filter p).length

theorem countEv_nil (p : Event → Bool) : countEv p [] = 0 := rfl

theorem countEv_append (p : Event → Bool) (a b : List Event) :
    countEv p (a ++ b) = countEv p a + countEv p b := by
  simp [countEv, List.filter_append]

theorem countEv_cons (p : Event → Bool) (e : Event) (es : List Event) :
    countEv p (e :: es) = (if p e then 1 else 0) + countEv p es := by
  simp only [countEv, List.filter_cons]
  split <;> simp [Nat.add_comm]

/-- Generic preservation of an invariant by `List.foldl`. -/
theorem foldl_inv {α β : Type _} (I : β → Prop) (f : β → α → β) (l : List α)
    (b : β) (hb : I b) (hf : ∀ b a, I b → I (f b a)) : I (l.foldl f b) := by
  induction l generalizing b with
  | nil => exact hb
  | cons x xs ih => exact ih (f b x) (hf b x hb)

theorem dget_append {α : Type} (d e : Dict α) (k : String) :
    dget (d ++ e) k = match dget d k with | some v => some v | none => dget e k := by
  induction d with
  | nil => simp [dget]
  | cons x xs ih =>
    by_cases hx : x.1 == k
    · simp [dget, List.find?, hx]
    · simpa [dget, List.find?, hx] using ih

/-! ## C1: cycle handling and persistence -/

/-- The two-node cycle `x -> y -> x` from the spec's scenario 4. -/
def cyclicDag : WDag :=
  { nodes := [⟨"x", "t", none, []⟩, ⟨"y", "t", none, []⟩],
    edges := [⟨"x", "y"⟩, ⟨"y", "x"⟩] }

/-- C1 (counterexample): the cyclic workflow `x -> y -> x` does fail
validation, but a `WorkflowExecution` row *is* persisted — created with
status `RUNNING` before `_topological_sort` runs and then updated to
`FAILED` — contradicting the claim that no row is persisted and that no row
with status `RUNNING` ever exists. -/
theorem C1_counterexample :
    (topologicalSort cyclicDag).isOk = false ∧
    (executeStreaming "w" [] cyclicDag).wtrace = ["RUNNING", "FAILED"] ∧
    "RUNNING" ∈ (executeStreaming "w" [] cyclicDag).wtrace := by decide

/-- C1 (amended): for every DAG rejected by `_topological_sort`, the stream
is exactly `workflow_failed` then `complete` (no `start`, no node events),
but the `WorkflowExecution` row is persisted with status `RUNNING` first and
`FAILED` afterwards, and no `ToolExecution` row is created and no node is
started. -/
theorem C1_amended (wid : String) (reg : ToolReg) (dag : WDag) (e : String)
    (h : topologicalSort dag = Except.error e) :
    (executeStreaming wid reg dag).events = [Event.workflow_failed wid e] ∧
    (executeStreaming wid reg dag).wtrace = ["RUNNING", "FAILED"] ∧
    (executeStreaming wid reg dag).recs = [] ∧
    (executeStreaming wid reg dag).started = [] ∧
    gatewayEvents wid reg dag = [Event.workflow_failed wid e, Event.complete] := by
  simp [executeStreaming, gatewayEvents, h]

/-- C1 (witness): the amended statement instantiated on the concrete cycle. -/
theorem C1_amended_witness :
    (executeStreaming "w" [] cyclicDag).events =
      [Event.workflow_failed "w" "Workflow DAG contains cycles"] ∧
    (executeStreaming "w" [] cyclicDag).wtrace = ["RUNNING", "FAILED"] ∧
    (executeStreaming "w" [] cyclicDag).recs = [] ∧
    (executeStreaming "w" [] cyclicDag).started = [] ∧
    gatewayEvents "w" [] cyclicDag =
      [Event.workflow_failed "w" "Workflow DAG contains cycles", Event.complete] :=
  C1_amended "w" [] cyclicDag "Workflow DAG contains cycles" (by decide)

/-! ## C3: implicit mapping edges and the execution plan -/

/-- Strip every node's `input_mappings`, keeping ids, tools and inputs. -/
def eraseMappings (dag : WDag) : WDag :=
  { dag with nodes := dag.nodes.map (fun n => { n with input_mappings := [] }) }

/-- Two nodes where `v` draws `u.x` through `input_mappings` but no explicit
edge is declared. -/
def implicitDag : WDag :=
  { nodes := [⟨"u", "t", none, []⟩, ⟨"v", "t", none, [("u.x", "y")]⟩],
    edges := [] }

/-- C3 (counterexample): node `v` maps `u.x` into its inputs, yet with no
explicit edge the plan puts `u` and `v` into the *same* first batch — `u` is
not placed in a strictly earlier batch than `v`. -/
theorem C3_counterexample :
    implicitDag.nodes.map (fun n => n.input_mappings) = [[], [("u.x", "y")]] ∧
    topologicalSort implicitDag = Except.ok [["u", "v"]] := by decide

/-- C3 (amended): the layered plan is computed from the explicit `edges`
alone — erasing every node's `input_mappings` never changes the plan, so
`input_mappings` induce no ordering between batches. -/
theorem C3_amended (dag : WDag) :
    topologicalSort (eraseMappings dag) = topologicalSort dag := by
  have hids : dagIds (eraseMappings dag) = dagIds dag := by
    unfold dagIds eraseMappings
    rw [List.map_map]
    rfl
  unfold topologicalSort
  rw [hids]
  rfl

/-! ## C4: unresolvable input mappings -/

/-- A tool returning its inputs verbatim. -/
def echoTool : Tool :=
  { execute := fun ins => Except.ok ins,
    output_schema_required := [],
    output_schema_properties := [] }

/-- C4 (counterexample): in `WorkflowExecutor._execute_node`, a mapping
`"u.x" -> "y"` whose upstream `u` has no recorded outputs is silently
skipped: resolution returns the inputs unchanged, the node still runs, and
its `ToolExecution` row is `COMPLETED` — no `UnresolvedInput` failure. -/
theorem C4_counterexample :
    resolveMappings [("u.x", "y")] [] [] = [] ∧
    (executeNode [("echo", echoTool)]
        [⟨"v", "echo", none, [("u.x", "y")]⟩] "v" []).outcome = Except.ok [] ∧
    (executeNode [("echo", echoTool)]
        [⟨"v", "echo", none, [("u.x", "y")]⟩] "v" []).recs =
      [{ tool_name := "echo", inputs := [], status := "COMPLETED",
         outputs := some [], error_message := none }] := by decide

/-- C4 (amended): the two resolvers disagree.  In the workflow executor a
mapping whose upstream node has no recorded outputs, or whose outputs lack
the named field, is silently dropped (the node runs with the mapped input
absent); only `PipelineGraph.resolve_node_inputs` raises — when the upstream
node is missing, not `COMPLETED`, or lacks the output key. -/
theorem C4_amended :
    (∀ (sk tk : String) (rest : Dict String) (inputs : Dict JVal)
        (results : Results) (u f : String),
        splitDot sk = some (u, f) → dget results u = none →
        resolveMappings ((sk, tk) :: rest) inputs results =
          resolveMappings rest inputs results)
  ∧ (∀ (sk tk : String) (rest : Dict String) (inputs : Dict JVal)
        (results : Results) (u f : String) (srcRes : Dict JVal),
        splitDot sk = some (u, f) → dget results u = some srcRes →
        dget srcRes f = none →
        resolveMappings ((sk, tk) :: rest) inputs results =
          resolveMappings rest inputs results)
  ∧ (∀ (g : PGraph) (nid : String) (node : PNode) (mpk ipk u f : String),
        dget g.nodes nid = some node → node.input_mappings = [(mpk, ipk)] →
        splitDot mpk = some (u, f) → dget g.nodes u = none →
        resolveNodeInputs g nid =
          Except.error ("Upstream node " ++ u ++ " not found"))
  ∧ (∀ (g : PGraph) (nid : String) (node up : PNode) (mpk ipk u f : String),
        dget g.nodes nid = some node → node.input_mappings = [(mpk, ipk)] →
        splitDot mpk = some (u, f) → dget g.nodes u = some up →
        up.status = "COMPLETED" → dget up.outputs f = none →
        resolveNodeInputs g nid =
          Except.error ("Output key " ++ f ++ " not found in " ++ u)) := by
  refine ⟨?_, ?_, ?_, ?_⟩
  · intro sk tk rest inputs results u f h1 h2
    simp [resolveMappings, h1, h2]
  · intro sk tk rest inputs results u f srcRes h1 h2 h3
    simp [resolveMappings, h1, h2, h3]
  · intro g nid node mpk ipk u f hn hm hs hup
    simp [resolveNodeInputs, hn, hm, hs, hup]
  · intro g nid node up mpk ipk u f hn hm hs hup hst hout
    simp [resolveNodeInputs, hn, hm, hs, hup, hst, hout]

/-- A one-node pipeline graph whose `v` maps from a nonexistent upstream. -/
def pgraphEx : PGraph :=
  { nodes := [("v", ⟨"v", "t", [], [("u.x", "y")], "PENDING", []⟩)],
    global_inputs := [] }

/-- C4 (witness): the amended statement instantiated on concrete inputs. -/
theorem C4_amended_witness :
    (resolveMappings [("u.x", "y")] [("a", JVal.jnum 1)] [] =
      resolveMappings [] [("a", JVal.jnum 1)] []) ∧
    resolveNodeInputs pgraphEx "v" =
      Except.error "Upstream node u not found" :=
  ⟨C4_amended.1 "u.x" "y" [] [("a", JVal.jnum 1)] [] "u" "x" (by decide) (by decide),
   C4_amended.2.2.1 pgraphEx "v" ⟨"v", "t", [], [("u.x", "y")], "PENDING", []⟩
     "u.x" "y" "u" "x" (by decide) (by decide) (by decide) (by decide)⟩

/-! ## C5: output-schema validation before persisting -/

/-- A tool whose contract declares `x : string` but whose `execute` returns
`x = 1` (an integer), violating its own output schema. -/
def badOutputTool : Tool :=
  { execute := fun _ => Except.ok [("x", JVal.jnum 1)],
    output_schema_required := ["x"],
    output_schema_properties := [("x", "string")] }

/-- C5 (counterexample): the executor records the node `COMPLETED` even
though the returned outputs violate the tool's declared output schema — no
validation happens before the `ToolExecution` row is written. -/
theorem C5_counterexample :
    validatesAgainst [("x", JVal.jnum 1)]
      { properties := badOutputTool.output_schema_properties,
        required := badOutputTool.output_schema_required } = false ∧
    (executeNode [("t", badOutputTool)] [⟨"n1", "t", none, []⟩] "n1" []).recs =
      [{ tool_name := "t", inputs := [], status := "COMPLETED",
         outputs := some [("x", JVal.jnum 1)], error_message := none }] := by
  decide

/-- C5 (amended): `WorkflowExecutor._execute_node` performs no output-schema
validation — whenever the tool's `execute` returns, the `ToolExecution` row
is written `COMPLETED` with the returned outputs, schema-conformant or not.
Output validation exists only in `BaseTask.run` (the taas_server path),
where a violating output raises and flips the task to `FAILED`. -/
theorem C5_amended :
    (∀ (reg : ToolReg) (nodes : List WNode) (nid : String) (results : Results)
        (node : WNode) (tool : Tool) (outs : Dict JVal),
        nodes.find? (fun n => n.id == nid) = some node →
        dget reg node.tool = some tool →
        tool.execute (resolveMappings node.input_mappings (node.inputs.getD [])
          results) = Except.ok outs →
        (executeNode reg nodes nid results).recs =
          [{ tool_name := node.tool,
             inputs := resolveMappings node.input_mappings (node.inputs.getD [])
               results,
             status := "COMPLETED", outputs := some outs,
             error_message := none }])
  ∧ (∀ (isch osch : OSchema) (ex : Dict JVal → Except String (Dict JVal))
        (inp outs : Dict JVal),
        validatesAgainst inp isch = true → ex inp = Except.ok outs →
        validatesAgainst outs osch = false →
        baseTaskRun isch osch ex inp =
          { status := "FAILED",
            error_message := some "Output validation failed",
            outputs := [],
            result := Except.error "Output validation failed" }) := by
  constructor
  · intro reg nodes nid results node tool outs hfind hreg hex
    simp [executeNode, hfind, hreg, hex]
  · intro isch osch ex inp outs hin hex hout
    simp [baseTaskRun, hin, hex, hout]

/-- C5 (witness): the amended statement instantiated on `badOutputTool` and
on a task whose output fails validation. -/
theorem C5_amended_witness :
    (executeNode [("t", badOutputTool)] [⟨"n1", "t", none, []⟩] "n1" []).recs =
      [{ tool_name := "t", inputs := [], status := "COMPLETED",
         outputs := some [("x", JVal.jnum 1)], error_message := none }] ∧
    baseTaskRun { properties := [], required := [] }
        { properties := [("x", "string")], required := ["x"] }
        (fun _ => Except.ok [("x", JVal.jnum 1)]) [] =
      { status := "FAILED", error_message := some "Output validation failed",
        outputs := [], result := Except.error "Output validation failed" } :=
  ⟨C5_amended.1 [("t", badOutputTool)] [⟨"n1", "t", none, []⟩] "n1" []
      ⟨"n1", "t", none, []⟩ badOutputTool [("x", JVal.jnum 1)]
      (by decide) (by rfl) (by rfl),
   C5_amended.2 { properties := [], required := [] }
      { properties := [("x", "string")], required := ["x"] }
      (fun _ => Except.ok [("x", JVal.jnum 1)]) [] [("x", JVal.jnum 1)]
      (by decide) (by rfl) (by decide)⟩

/-! ## C10: mutation of the caller's DAG during input resolution -/

/-- C10 (counterexample): a node that carries `input_mappings` but no
`"inputs"` key is *not* mutated — the resolved value is delivered to the
tool through a fresh dict, and after execution the submitted node dicts are
unchanged, contradicting the claim that every mapped node's own inputs gain
the resolved entries. -/
theorem C10_counterexample :
    (executeNode [("echo", echoTool)]
        [⟨"v", "echo", none, [("u.x", "y")]⟩] "v"
        [("u", [("x", JVal.jnum 5)])]).outcome =
      Except.ok [("y", JVal.jnum 5)] ∧
    (executeNode [("echo", echoTool)]
        [⟨"v", "echo", none, [("u.x", "y")]⟩] "v"
        [("u", [("x", JVal.jnum 5)])]).nodes =
      [⟨"v", "echo", none, [("u.x", "y")]⟩] := by decide

/-- If the first node with the given id changes under `f`, the updated list
differs from the original. -/
theorem updateFirst_ne (nodes : List WNode) (nid : String) (f : WNode → WNode)
    (node : WNode) (hfind : nodes.find? (fun n => n.id == nid) = some node)
    (hne : f node ≠ node) : updateFirst nodes nid f ≠ nodes := by
  induction nodes with
  | nil => simp [List.find?] at hfind
  | cons n rest ih =>
    by_cases hn : n.id == nid
    · have hnode : node = n := by
        simp only [List.find?, hn] at hfind
        exact (Option.some.inj hfind).symm
      subst hnode
      intro hc
      have heq : updateFirst (node :: rest) nid f = f node :: rest := by
        simp [updateFirst, hn]
      rw [heq] at hc
      exact hne (List.cons.inj hc).1
    · intro hc
      have heq : updateFirst (n :: rest) nid f = n :: updateFirst rest nid f := by
        simp [updateFirst, hn]
      rw [heq] at hc
      have hfind2 : rest.find? (fun x => x.id == nid) = some node := by
        simpa [List.find?, hn] using hfind
      exact ih hfind2 (List.cons.inj hc).2

/-- C10 (amended): `_execute_node` mutates the caller's DAG exactly when the
node dict has an `"inputs"` key: then the first node with the given id gets
its `inputs` replaced by the fully resolved dict (and if any mapping
actually changed it, the DAG is no longer equal to the submitted one); a
node without an `"inputs"` key is left untouched. -/
theorem C10_amended :
    (∀ (reg : ToolReg) (nodes : List WNode) (nid : String) (results : Results)
        (node : WNode) (m : Dict JVal),
        nodes.find? (fun n => n.id == nid) = some node → node.inputs = some m →
        (executeNode reg nodes nid results).nodes =
          updateFirst nodes nid (fun n =>
            { n with inputs := some (resolveMappings node.input_mappings m results) }))
  ∧ (∀ (reg : ToolReg) (nodes : List WNode) (nid : String) (results : Results)
        (node : WNode),
        nodes.find? (fun n => n.id == nid) = some node → node.inputs = none →
        (executeNode reg nodes nid results).nodes = nodes)
  ∧ (∀ (reg : ToolReg) (nodes : List WNode) (nid : String) (results : Results)
        (node : WNode) (m : Dict JVal),
        nodes.find? (fun n => n.id == nid) = some node → node.inputs = some m →
        resolveMappings node.input_mappings m results ≠ m →
        (executeNode reg nodes nid results).nodes ≠ nodes) := by
  have hmain : ∀ (reg : ToolReg) (nodes : List WNode) (nid : String)
      (results : Results) (node : WNode) (m : Dict JVal),
      nodes.find? (fun n => n.id == nid) = some node → node.inputs = some m →
      (executeNode reg nodes nid results).nodes =
        updateFirst nodes nid (fun n =>
          { n with inputs := some (resolveMappings node.input_mappings m results) }) := by
    intro reg nodes nid results node m hfind hin
    simp only [executeNode, hfind, hin, Option.getD_some]
    cases hreg : dget reg node.tool with
    | none => simp
    | some tool =>
      cases hex : tool.execute (resolveMappings node.input_mappings m results) with
      | ok out => simp [hreg, hex]
      | error e => simp [hreg, hex]
  refine ⟨hmain, ?_, ?_⟩
  · intro reg nodes nid results node hfind hin
    simp only [executeNode, hfind, hin]
    cases hreg : dget reg node.tool with
    | none => simp
    | some tool =>
      cases hex : tool.execute (resolveMappings node.input_mappings [] results) with
      | ok out => simp [hreg, hex]
      | error e => simp [hreg, hex]
  · intro reg nodes nid results node m hfind hin hchanged
    rw [hmain reg nodes nid results node m hfind hin]
    apply updateFirst_ne nodes nid _ node hfind
    intro hc
    have : some (resolveMappings node.input_mappings m results) = node.inputs := by
      have := congrArg WNode.inputs hc
      simpa using this
    rw [hin] at this
    exact hchanged (Option.some.inj this)

/-- C10 (witness): with an explicit `"inputs": {}` dict and a resolvable
mapping, execution rewrites the submitted node's own inputs, so the final
DAG differs from the submitted one. -/
theorem C10_amended_witness :
    (executeNode [("echo", echoTool)]
        [⟨"v", "echo", some [], [("u.x", "y")]⟩] "v"
        [("u", [("x", JVal.jnum 5)])]).nodes ≠
      [⟨"v", "echo", some [], [("u.x", "y")]⟩] :=
  C10_amended.2.2 [("echo", echoTool)]
    [⟨"v", "echo", some [], [("u.x", "y")]⟩] "v"
    [("u", [("x", JVal.jnum 5)])] ⟨"v", "echo", some [], [("u.x", "y")]⟩ []
    (by decide) (by rfl) (by decide)

/-! ## C7: dependency cycles in schema composition -/

/-- Two tasks, each declaring the other as its dependency — a dependency
cycle. -/
def cycTaskReg : TaskReg :=
  [("A", { input_schema := { properties := [("a", JVal.jnull)], required := ["a"] },
           output_mappings := [], dependencies := ["B"] }),
   ("B", { input_schema := { properties := [("b", JVal.jnull)], required := ["b"] },
           output_mappings := [], dependencies := ["A"] })]

/-- C7 (code bug): `get_combined_input_schema`'s docstring promises a
`ValueError` when circular dependencies are detected, but on the two-task
cycle `A <-> B` the `visited` set silently skips the revisit and composition
returns a schema; the depth-10 guard never fires on a cycle.  The missing-
dependency half of the claim does hold: an unregistered dependency raises. -/
theorem C7_code_bug :
    getCombinedInputSchema cycTaskReg "A" true =
      Except.ok { properties := [("a", JVal.jnull), ("b", JVal.jnull)],
                  required := ["a", "b"] } ∧
    (getCombinedInputSchema cycTaskReg "A" true).isOk = true ∧
    getCombinedInputSchema
        [("C", { input_schema := { properties := [], required := [] },
                 output_mappings := [], dependencies := ["missing"] })]
        "C" true =
      Except.error "Dependency task missing not found" := by decide

/-! ## C8: recovery of interrupted rows -/

/-- C8 (counterexample): a `Task` row already in status `PENDING` is left
completely untouched by `recover_from_last_session` — its `error_message`
stays empty, contradicting the claim that every `RUNNING`/`PENDING`/`QUEUED`
row ends up `PENDING` *with a populated error message* (`Pipeline` rows,
which have no `error_message` column at all, never get one either). -/
theorem C8_counterexample :
    (recoverFromLastSession
        { tasks := [⟨"t1", "load_data", "PENDING", none⟩],
          pipelines := [⟨"p1", "ml", "RUNNING"⟩] }).tasks.map
      (fun t => t.error_message) = [none] ∧
    recoverFromLastSession
        { tasks := [⟨"t1", "load_data", "PENDING", none⟩],
          pipelines := [⟨"p1", "ml", "RUNNING"⟩] } =
      { tasks := [⟨"t1", "load_data", "PENDING", none⟩],
        pipelines := [⟨"p1", "ml", "PENDING"⟩] } := by decide

/-- C8 (amended): recovery marks exactly the `RUNNING` and `QUEUED` rows
`PENDING`; recovered `Task` rows get `error_message = "Task interrupted by
server restart"`, recovered `Pipeline` rows only change status (the model
has no error-message column), and all other rows — including rows already
`PENDING` — are unchanged.  The sweep is a pure state transformation that
starts no execution work. -/
theorem C8_amended :
    (∀ (db : TDb) (i : Nat) (t tr : TaskRow),
        db.tasks[i]? = some t →
        (recoverFromLastSession db).tasks[i]? = some tr →
        ((t.status = "RUNNING" ∨ t.status = "QUEUED") →
            tr.status = "PENDING" ∧
            tr.error_message = some "Task interrupted by server restart") ∧
        (t.status ≠ "RUNNING" → t.status ≠ "QUEUED" → tr = t))
  ∧ (∀ (db : TDb) (i : Nat) (p pr : PipelineRow),
        db.pipelines[i]? = some p →
        (recoverFromLastSession db).pipelines[i]? = some pr →
        ((p.status = "RUNNING" ∨ p.status = "QUEUED") →
            pr.status = "PENDING") ∧
        (p.status ≠ "RUNNING" → p.status ≠ "QUEUED" → pr = p)) := by
  constructor
  · intro db i t tr ht htr
    have hmap : (recoverFromLastSession db).tasks[i]? = some (recoverTask t) := by
      simp [recoverFromLastSession, List.getElem?_map, ht]
    rw [hmap] at htr
    have htr2 : tr = recoverTask t := (Option.some.inj htr).symm
    subst htr2
    constructor
    · intro hst
      rcases hst with h | h <;> simp [recoverTask, h]
    · intro h1 h2
      simp [recoverTask]
      intro hc
      rcases hc with hc | hc
      · exact absurd (by simpa using hc) h1
      · exact absurd (by simpa using hc) h2
  · intro db i p pr hp hpr
    have hmap : (recoverFromLastSession db).pipelines[i]? =
        some (recoverPipeline p) := by
      simp [recoverFromLastSession, List.getElem?_map, hp]
    rw [hmap] at hpr
    have hpr2 : pr = recoverPipeline p := (Option.some.inj hpr).symm
    subst hpr2
    constructor
    · intro hst
      rcases hst with h | h <;> simp [recoverPipeline, h]
    · intro h1 h2
      simp [recoverPipeline]
      intro hc
      rcases hc with hc | hc
      · exact absurd (by simpa using hc) h1
      · exact absurd (by simpa using hc) h2

/-- C8 (witness): the amended statement instantiated on a database holding
one `RUNNING` task and one `RUNNING` pipeline. -/
theorem C8_amended_witness :
    (⟨"t1", "x", "PENDING", some "Task interrupted by server restart"⟩ :
        TaskRow).status = "PENDING" ∧
    (⟨"t1", "x", "PENDING", some "Task interrupted by server restart"⟩ :
        TaskRow).error_message = some "Task interrupted by server restart" :=
  (C8_amended.1
    { tasks := [⟨"t1", "x", "RUNNING", none⟩],
      pipelines := [⟨"p1", "y", "RUNNING"⟩] }
    0 ⟨"t1", "x", "RUNNING", none⟩
    ⟨"t1", "x", "PENDING", some "Task interrupted by server restart"⟩
    (by decide) (by decide)).1 (Or.inl rfl)

/-! ## C9: pipeline schemas exclude intermediate fields -/

/-- Soundness of the first pass: every `output_mappings` value of every task
of the pipeline (and everything already accumulated) ends up in
`all_outputs`. -/
theorem allOutputsAux_sound (reg : TaskReg) :
    ∀ (names : List String) (acc outs : List String),
      allOutputsAux reg acc names = Except.ok outs →
      (∀ x ∈ acc, x ∈ outs) ∧
      (∀ n cls, n ∈ names → dget reg n = some cls →
          ∀ v ∈ cls.output_mappings.map Prod.snd, v ∈ outs) := by
  intro names
  induction names with
  | nil =>
    intro acc outs h
    have hao : acc = outs := by simpa [allOutputsAux] using h
    subst hao
    exact ⟨fun x hx => hx, fun n cls hn => absurd hn (List.not_mem_nil n)⟩
  | cons n0 rest ih =>
    intro acc outs h
    cases hget : dget reg n0 with
    | none => simp [allOutputsAux, hget] at h
    | some cls0 =>
      have h2 : allOutputsAux reg (acc ++ cls0.output_mappings.map Prod.snd)
          rest = Except.ok outs := by
        simpa [allOutputsAux, hget] using h
      obtain ⟨hsub, hrest⟩ := ih (acc ++ cls0.output_mappings.map Prod.snd) outs h2
      refine ⟨?_, ?_⟩
      · intro x hx
        exact hsub x (List.mem_append_left _ hx)
      · intro n cls hn hcls v hv
        rcases List.mem_cons.mp hn with h1 | h1
        · subst h1
          rw [hget] at hcls
          have hc : cls0 = cls := Option.some.inj hcls
          subst hc
          exact hsub v (List.mem_append_right _ hv)
        · exact hrest n cls h1 hcls v hv

/-- Invariant of the second pass: no accumulated property name and no
accumulated required name is a member of `all_outputs`. -/
theorem pipelineSecondPass_inv (reg : TaskReg) (names : List String)
    (outs : List String) :
    (∀ q, dmem (pipelineSecondPass reg names outs).1 q = true → q ∉ outs) ∧
    (∀ q ∈ (pipelineSecondPass reg names outs).2, q ∉ outs) := by
  unfold pipelineSecondPass
  apply foldl_inv (fun a : Dict JVal × List String =>
    (∀ q, dmem a.1 q = true → q ∉ outs) ∧ (∀ q ∈ a.2, q ∉ outs))
  · refine ⟨?_, ?_⟩
    · intro q hq
      simp [dmem, dget] at hq
    · intro q hq
      simp at hq
  · intro b n hb
    cases hget : dget reg n with
    | none => simpa [hget] using hb
    | some cls =>
      simp only [hget]
      apply foldl_inv (fun a : Dict JVal × List String =>
        (∀ q, dmem a.1 q = true → q ∉ outs) ∧ (∀ q ∈ a.2, q ∉ outs))
        (secondPassStep outs cls) cls.input_schema.properties b hb
      intro a p ha
      unfold secondPassStep
      by_cases houts : p.1 ∈ outs
      · simpa [houts] using ha
      · have hb1 : outs.contains p.1 = false := by simpa using houts
        by_cases hdm : dmem a.1 p.1 = true
        · simpa [houts, hdm] using ha
        · simp only [hb1, hdm, Bool.false_eq_true, if_false]
          refine ⟨?_, ?_⟩
          · intro q hq
            unfold dmem at hq
            rw [dget_append] at hq
            cases hda : dget a.1 q with
            | some v =>
              exact ha.1 q (by simp [dmem, hda])
            | none =>
              rw [hda] at hq
              by_cases hpq : (p.1 == q) = true
              · have hqe : p.1 = q := eq_of_beq hpq
                rw [← hqe]
                exact houts
              · simp [dget, List.find?, hpq] at hq
          · intro q hq
            by_cases hr : cls.input_schema.required.contains p.1 = true
            · simp only [hr, if_true] at hq
              rcases List.mem_append.mp hq with h1 | h1
              · exact ha.2 q h1
              · have hqe : q = p.1 := by simpa using h1
                rw [hqe]
                exact houts
            · simp only [hr, Bool.false_eq_true, if_false] at hq
              exact ha.2 q hq

/-- C9: for every pipeline of registered tasks, the composed schema contains
no property — and lists no required name — that occurs as a value in any
pipeline task's `output_mappings`; such intermediate field names are
excluded from the user-facing schema. -/
theorem C9_no_intermediate_fields (reg : TaskReg) (task_names : List String)
    (schema : TSchema) (h : getPipelineSchema reg task_names = Except.ok schema)
    (p : String) (hp : dmem schema.properties p = true ∨ p ∈ schema.required)
    (n : String) (cls : TaskDef) (hn : n ∈ task_names)
    (hcls : dget reg n = some cls) :
    p ∉ cls.output_mappings.map Prod.snd := by
  intro hmem
  cases houts : allOutputs reg task_names with
  | error e =>
    simp [getPipelineSchema, houts] at h
  | ok outs =>
    simp only [getPipelineSchema, houts] at h
    have hschema := Except.ok.inj h
    have hpouts : p ∈ outs :=
      (allOutputsAux_sound reg task_names [] outs houts).2 n cls hn hcls p hmem
    have hinv := pipelineSecondPass_inv reg task_names outs
    have hnotm : p ∉ outs := by
      rcases hp with hp | hp
      · apply hinv.1 p
        rw [← hschema] at hp
        exact hp
      · apply hinv.2 p
        rw [← hschema] at hp
        exact hp
    exact hnotm hpouts

/-- A two-task pipeline: `t1` produces `mid` (mapped to downstream input
`mid`), `t2` consumes user input `a` and intermediate input `mid`. -/
def pipeReg : TaskReg :=
  [("t1", { input_schema := { properties := [("src", JVal.jnull)],
                              required := ["src"] },
            output_mappings := [("out_mid", "mid")], dependencies := [] }),
   ("t2", { input_schema := { properties := [("mid", JVal.jnull),
                                             ("a", JVal.jnull)],
                              required := ["mid", "a"] },
            output_mappings := [], dependencies := [] })]

/-- C9 (witness): the theorem instantiated on the concrete two-task
pipeline, whose composed schema keeps `src` and `a` but drops `mid`. -/
theorem C9_no_intermediate_fields_witness :
    "src" ∉ (({ input_schema := { properties := [("src", JVal.jnull)],
                                  required := ["src"] },
                output_mappings := [("out_mid", "mid")],
                dependencies := [] } : TaskDef)).output_mappings.map Prod.snd :=
  C9_no_intermediate_fields pipeReg ["t1", "t2"]
    { properties := [("src", JVal.jnull), ("a", JVal.jnull)],
      required := ["src", "a"] }
    (by decide) "src" (Or.inl (by decide)) "t1"
    { input_schema := { properties := [("src", JVal.jnull)],
                        required := ["src"] },
      output_mappings := [("out_mid", "mid")], dependencies := [] }
    (by decide) (by decide)

/-! ## C2 and C6: event-stream structure of the batch loop -/

/-- Every event an `Event.node_completed` or `Event.node_failed` classifier
rejects is none of the other kinds either. -/
theorem nodeEv_not_other (ev : Event)
    (h : isNodeCompleted ev = true ∨ isNodeFailed ev = true) :
    isStart ev = false ∧ isComplete ev = false ∧
    isWorkflowFailed ev = false ∧ isWorkflowCompleted ev = false := by
  cases ev <;>
    simp [isNodeCompleted, isNodeFailed, isStart, isComplete,
      isWorkflowFailed, isWorkflowCompleted] at h ⊢

theorem countEv_zero_of_all (p : Event → Bool) :
    ∀ es : List Event, (∀ ev ∈ es, p ev = false) → countEv p es = 0 := by
  intro es h
  induction es with
  | nil => rfl
  | cons e tl ih =>
    have h0 : p e = false := h e (List.mem_cons_self e tl)
    rw [countEv_cons, h0]
    simpa using ih (fun ev hev => h ev (List.mem_cons_of_mem e hev))

theorem all_false_of_countEv_zero (p : Event → Bool) (es : List Event)
    (h : countEv p es = 0) : ∀ ev ∈ es, p ev = false := by
  intro ev hev
  cases hpe : p ev
  · rfl
  · exfalso
    have hmem : ev ∈ es.filter p := List.mem_filter.mpr ⟨hev, hpe⟩
    have : es.filter p ≠ [] := List.ne_nil_of_mem hmem
    exact this (List.eq_nil_of_length_eq_zero h)

/-- Every event of the zip loop is a `node_completed` or a `node_failed`. -/
theorem processZip_class (wid : String) :
    ∀ (outs : List (String × Except String (Dict JVal))) (results : Results)
      (completed total : Nat),
      ∀ ev ∈ (processZip wid outs results completed total).evs,
        isNodeCompleted ev = true ∨ isNodeFailed ev = true := by
  intro outs
  induction outs with
  | nil =>
    intro results completed total ev hev
    simp [processZip] at hev
  | cons o rest ih =>
    intro results completed total ev hev
    obtain ⟨nid, res⟩ := o
    cases res with
    | error e =>
      simp [processZip] at hev
      subst hev
      right
      rfl
    | ok v =>
      simp only [processZip, List.mem_cons] at hev
      rcases hev with hev | hev
      · subst hev
        left
        rfl
      · exact ih (dset results nid v) (completed + 1) total ev hev

/-- Without a failure, the zip loop emits one `node_completed` per outcome
and no `node_failed`. -/
theorem processZip_ok (wid : String) :
    ∀ (outs : List (String × Except String (Dict JVal))) (results : Results)
      (completed total : Nat),
      (processZip wid outs results completed total).failed = false →
      countEv isNodeFailed (processZip wid outs results completed total).evs = 0 ∧
      countEv isNodeCompleted (processZip wid outs results completed total).evs
        = outs.length := by
  intro outs
  induction outs with
  | nil =>
    intro results completed total _
    simp [processZip, countEv]
  | cons o rest ih =>
    intro results completed total hfl
    obtain ⟨nid, res⟩ := o
    cases res with
    | error e => simp [processZip] at hfl
    | ok v =>
      have hfl2 : (processZip wid rest (dset results nid v) (completed + 1)
          total).failed = false := by
        simpa [processZip] using hfl
      obtain ⟨h1, h2⟩ := ih (dset results nid v) (completed + 1) total hfl2
      constructor
      · simp only [processZip, countEv_cons]
        rw [h1]
        simp [isNodeFailed]
      · simp only [processZip, countEv_cons]
        rw [h2]
        simp [isNodeCompleted, Nat.add_comm]

/-- With a failure, the zip loop emits the completed prefix, then exactly one
`node_failed` taken from a failing outcome, and stops. -/
theorem processZip_fail (wid : String) :
    ∀ (outs : List (String × Except String (Dict JVal))) (results : Results)
      (completed total : Nat),
      (processZip wid outs results completed total).failed = true →
      countEv isNodeFailed (processZip wid outs results completed total).evs = 1 ∧
      countEv isNodeCompleted (processZip wid outs results completed total).evs + 1
        ≤ outs.length ∧
      ∃ pre nid e,
        (processZip wid outs results completed total).evs =
          pre ++ [Event.node_failed nid e] ∧
        (∀ ev ∈ pre, isNodeCompleted ev = true) ∧
        (nid, Except.error e) ∈ outs := by
  intro outs
  induction outs with
  | nil =>
    intro results completed total hfl
    simp [processZip] at hfl
  | cons o rest ih =>
    intro results completed total hfl
    obtain ⟨nid, res⟩ := o
    cases res with
    | error e =>
      refine ⟨by simp [processZip, countEv, isNodeFailed], ?_, ?_⟩
      · simp [processZip, countEv, isNodeCompleted]
      · exact ⟨[], nid, e, by simp [processZip], by simp, by simp⟩
    | ok v =>
      have hfl2 : (processZip wid rest (dset results nid v) (completed + 1)
          total).failed = true := by
        simpa [processZip] using hfl
      obtain ⟨h1, h2, pre, nid2, e2, hevs, hpre, hmem⟩ :=
        ih (dset results nid v) (completed + 1) total hfl2
      refine ⟨?_, ?_, ?_⟩
      · simp only [processZip, countEv_cons]
        rw [h1]
        simp [isNodeFailed]
      · simp [processZip, countEv_cons, isNodeCompleted]
        omega
      · refine ⟨Event.node_completed nid (completed + 1) total v :: pre, nid2, e2,
          ?_, ?_, List.mem_cons_of_mem _ hmem⟩
        · simp only [processZip, hevs, List.cons_append]
        · intro ev hev
          rcases List.mem_cons.mp hev with h | h
          · subst h
            rfl
          · exact hpre ev h

/-- The zip loop pairs outcomes with exactly the batch's node ids. -/
theorem runBatch_ids (reg : ToolReg) :
    ∀ (batch : List String) (nodes : List WNode) (results : Results),
      (runBatch reg batch nodes results).2.2.map Prod.fst = batch := by
  intro batch
  induction batch with
  | nil =>
    intro nodes results
    simp [runBatch]
  | cons nid rest ih =>
    intro nodes results
    simp [runBatch, ih]

/-- The batch loop never emits `start`, `complete` or `workflow_failed`. -/
theorem runBatches_class (wid : String) (reg : ToolReg) (total : Nat) :
    ∀ (bs : List (List String)) (nodes : List WNode) (results : Results)
      (completed : Nat),
      ∀ ev ∈ (runBatches wid reg total bs nodes results completed).events,
        isStart ev = false ∧ isComplete ev = false ∧
        isWorkflowFailed ev = false := by
  intro bs
  induction bs with
  | nil =>
    intro nodes results completed ev hev
    simp [runBatches] at hev
    subst hev
    exact ⟨rfl, rfl, rfl⟩
  | cons b rest ih =>
    intro nodes results completed ev hev
    simp only [runBatches] at hev
    by_cases hfl : (processZip wid (runBatch reg b nodes results).2.2 results
        completed total).failed = true
    · simp only [hfl, if_true] at hev
      have := processZip_class wid (runBatch reg b nodes results).2.2 results
        completed total ev hev
      obtain ⟨h1, h2, h3, _⟩ := nodeEv_not_other ev this
      exact ⟨h1, h2, h3⟩
    · simp only [Bool.not_eq_true] at hfl
      simp only [hfl, Bool.false_eq_true, if_false, List.mem_append] at hev
      rcases hev with hev | hev
      · have := processZip_class wid (runBatch reg b nodes results).2.2 results
          completed total ev hev
        obtain ⟨h1, h2, h3, _⟩ := nodeEv_not_other ev this
        exact ⟨h1, h2, h3⟩
      · exact ih _ _ _ ev hev

/-- The batch loop emits at most one `node_completed`/`node_failed` per node
of the plan. -/
theorem runBatches_bound (wid : String) (reg : ToolReg) (total : Nat) :
    ∀ (bs : List (List String)) (nodes : List WNode) (results : Results)
      (completed : Nat),
      countEv isNodeCompleted
          (runBatches wid reg total bs nodes results completed).events
        + countEv isNodeFailed
          (runBatches wid reg total bs nodes results completed).events
        ≤ (bs.map List.length).sum := by
  intro bs
  induction bs with
  | nil =>
    intro nodes results completed
    simp [runBatches, countEv, isNodeCompleted, isNodeFailed]
  | cons b rest ih =>
    intro nodes results completed
    simp only [runBatches]
    have hlen : (runBatch reg b nodes results).2.2.length = b.length := by
      have := runBatch_ids reg b nodes results
      calc (runBatch reg b nodes results).2.2.length
          = ((runBatch reg b nodes results).2.2.map Prod.fst).length := by
            rw [List.length_map]
        _ = b.length := by rw [this]
    by_cases hfl : (processZip wid (runBatch reg b nodes results).2.2 results
        completed total).failed = true
    · simp only [hfl, if_true]
      obtain ⟨h1, h2, _⟩ := processZip_fail wid
        (runBatch reg b nodes results).2.2 results completed total hfl
      rw [hlen] at h2
      simp only [List.map_cons, List.sum_cons]
      omega
    · simp only [Bool.not_eq_true] at hfl
      simp only [hfl, Bool.false_eq_true, if_false]
      obtain ⟨h1, h2⟩ := processZip_ok wid
        (runBatch reg b nodes results).2.2 results completed total hfl
      rw [hlen] at h2
      have hih := ih (runBatch reg b nodes results).1
        (processZip wid (runBatch reg b nodes results).2.2 results completed
          total).results
        (processZip wid (runBatch reg b nodes results).2.2 results completed
          total).completed
      simp only [countEv_append, List.map_cons, List.sum_cons]
      omega

/-- When no node fails, the batch loop emits one `node_completed` per node,
no `node_failed`, exactly one `workflow_completed`, starts every node of
every batch, and persists `COMPLETED`. -/
theorem runBatches_ok (wid : String) (reg : ToolReg) (total : Nat) :
    ∀ (bs : List (List String)) (nodes : List WNode) (results : Results)
      (completed : Nat),
      (runBatches wid reg total bs nodes results completed).failed = false →
      countEv isNodeFailed
          (runBatches wid reg total bs nodes results completed).events = 0 ∧
      countEv isNodeCompleted
          (runBatches wid reg total bs nodes results completed).events
        = (bs.map List.length).sum ∧
      countEv isWorkflowCompleted
          (runBatches wid reg total bs nodes results completed).events = 1 ∧
      (runBatches wid reg total bs nodes results completed).started
        = bs.flatten ∧
      (runBatches wid reg total bs nodes results completed).wtrace
        = ["COMPLETED"] := by
  intro bs
  induction bs with
  | nil =>
    intro nodes results completed _
    refine ⟨?_, ?_, ?_, ?_, ?_⟩ <;>
      simp [runBatches, countEv, isNodeFailed, isNodeCompleted,
        isWorkflowCompleted]
  | cons b rest ih =>
    intro nodes results completed hfl
    have hlen : (runBatch reg b nodes results).2.2.length = b.length := by
      have h := runBatch_ids reg b nodes results
      calc (runBatch reg b nodes results).2.2.length
          = ((runBatch reg b nodes results).2.2.map Prod.fst).length := by
            rw [List.length_map]
        _ = b.length := by rw [h]
    by_cases hzf : (processZip wid (runBatch reg b nodes results).2.2 results
        completed total).failed = true
    · exfalso
      simp only [runBatches, hzf, if_true] at hfl
      exact Bool.true_eq_false.mp hfl
    · simp only [Bool.not_eq_true] at hzf
      have hfl2 : (runBatches wid reg total rest
          (runBatch reg b nodes results).1
          (processZip wid (runBatch reg b nodes results).2.2 results completed
            total).results
          (processZip wid (runBatch reg b nodes results).2.2 results completed
            total).completed).failed = false := by
        simpa [runBatches, hzf] using hfl
      obtain ⟨hz1, hz2⟩ := processZip_ok wid
        (runBatch reg b nodes results).2.2 results completed total hzf
      rw [hlen] at hz2
      obtain ⟨hr1, hr2, hr3, hr4, hr5⟩ := ih _ _ _ hfl2
      have hwc0 : countEv isWorkflowCompleted
          (processZip wid (runBatch reg b nodes results).2.2 results completed
            total).evs = 0 := by
        apply countEv_zero_of_all
        intro ev hev
        exact (nodeEv_not_other ev (processZip_class wid _ _ _ _ ev hev)).2.2.2
      simp only [runBatches, hzf, Bool.false_eq_true, if_false]
      refine ⟨?_, ?_, ?_, ?_, ?_⟩
      · rw [countEv_append, hz1, hr1]
      · rw [countEv_append, hz2, hr2]
        simp [List.map_cons, List.sum_cons]
      · rw [countEv_append, hwc0, hr3]
      · rw [hr4]
        simp [List.flatten]
      · exact hr5

/-- When a node fails, the batch loop emits exactly one `node_failed` (after
only `node_completed` events), no `workflow_completed`, starts exactly the
first k batches where the failing node belongs to the k-th (last started)
batch — so no batch after the failing node's batch is ever started — and
persists `FAILED`. -/
theorem runBatches_fail (wid : String) (reg : ToolReg) (total : Nat) :
    ∀ (bs : List (List String)) (nodes : List WNode) (results : Results)
      (completed : Nat),
      (runBatches wid reg total bs nodes results completed).failed = true →
      countEv isWorkflowCompleted
          (runBatches wid reg total bs nodes results completed).events = 0 ∧
      countEv isNodeFailed
          (runBatches wid reg total bs nodes results completed).events = 1 ∧
      (∃ pre nid e k,
          (runBatches wid reg total bs nodes results completed).events =
            pre ++ [Event.node_failed nid e] ∧
          (∀ ev ∈ pre, isNodeCompleted ev = true) ∧
          nid ∈ (runBatches wid reg total bs nodes results completed).started ∧
          1 ≤ k ∧ k ≤ bs.length ∧
          (runBatches wid reg total bs nodes results completed).started
            = (bs.take k).flatten ∧
          nid ∈ bs.getD (k - 1) []) ∧
      (runBatches wid reg total bs nodes results completed).wtrace
        = ["FAILED"] := by
  intro bs
  induction bs with
  | nil =>
    intro nodes results completed hfl
    simp [runBatches] at hfl
  | cons b rest ih =>
    intro nodes results completed hfl
    by_cases hzf : (processZip wid (runBatch reg b nodes results).2.2 results
        completed total).failed = true
    · obtain ⟨hz1, hz2, pre, nid, e, hevs, hpre, hmem⟩ := processZip_fail wid
        (runBatch reg b nodes results).2.2 results completed total hzf
      have hwc0 : countEv isWorkflowCompleted
          (processZip wid (runBatch reg b nodes results).2.2 results completed
            total).evs = 0 := by
        apply countEv_zero_of_all
        intro ev hev
        exact (nodeEv_not_other ev (processZip_class wid _ _ _ _ ev hev)).2.2.2
      have hnidb : nid ∈ b := by
        have h := runBatch_ids reg b nodes results
        rw [← h]
        exact List.mem_map.mpr ⟨(nid, Except.error e), hmem, rfl⟩
      simp only [runBatches, hzf, if_true]
      refine ⟨hwc0, hz1, ⟨pre, nid, e, 1, hevs, hpre, hnidb, Nat.le_refl 1,
        ?_, ?_, ?_⟩, by trivial⟩
      · simp
      · simp [List.take, List.flatten]
      · simpa using hnidb
    · simp only [Bool.not_eq_true] at hzf
      have hfl2 : (runBatches wid reg total rest
          (runBatch reg b nodes results).1
          (processZip wid (runBatch reg b nodes results).2.2 results completed
            total).results
          (processZip wid (runBatch reg b nodes results).2.2 results completed
            total).completed).failed = true := by
        simpa [runBatches, hzf] using hfl
      obtain ⟨hz1, hz2⟩ := processZip_ok wid
        (runBatch reg b nodes results).2.2 results completed total hzf
      obtain ⟨hr1, hr2, ⟨pre, nid, e, k, hevs, hpre, hnid, hk1, hk2, hk3, hk4⟩,
        hr5⟩ := ih _ _ _ hfl2
      have hwc0 : countEv isWorkflowCompleted
          (processZip wid (runBatch reg b nodes results).2.2 results completed
            total).evs = 0 := by
        apply countEv_zero_of_all
        intro ev hev
        exact (nodeEv_not_other ev (processZip_class wid _ _ _ _ ev hev)).2.2.2
      have hzallnc : ∀ ev ∈ (processZip wid (runBatch reg b nodes results).2.2
          results completed total).evs, isNodeCompleted ev = true := by
        intro ev hev
        rcases processZip_class wid _ _ _ _ ev hev with h | h
        · exact h
        · exfalso
          have := all_false_of_countEv_zero isNodeFailed _ hz1 ev hev
          rw [this] at h
          exact Bool.false_eq_true.mp h
      simp only [runBatches, hzf, Bool.false_eq_true, if_false]
      refine ⟨?_, ?_, ?_, ?_⟩
      · rw [countEv_append, hwc0, hr1]
      · rw [countEv_append, hz1, hr2]
      · refine ⟨(processZip wid (runBatch reg b nodes results).2.2 results
            completed total).evs ++ pre, nid, e, k + 1, ?_, ?_, ?_,
            Nat.le_add_left 1 k,
            by simpa using Nat.add_le_add_right hk2 1, ?_, ?_⟩
        · rw [hevs, List.append_assoc]
        · intro ev hev
          rcases List.mem_append.mp hev with h | h
          · exact hzallnc ev h
          · exact hpre ev h
        · exact List.mem_append_right b hnid
        · simp only [List.take_succ_cons, List.flatten_cons]
          rw [hk3]
        · have hks : k = (k - 1) + 1 := (Nat.succ_pred_eq_of_pos hk1).symm
          rw [Nat.add_sub_cancel, hks]
          simpa using hk4
      · exact hr5

theorem nc_not_nf (ev : Event) (h : isNodeCompleted ev = true) :
    isNodeFailed ev = false := by
  cases ev <;> simp [isNodeCompleted, isNodeFailed] at h ⊢

/-- Event counts over the gateway stream decompose into the leading `start`,
the batch-loop events, and the trailing `complete`. -/
theorem countEv_gateway (wid : String) (reg : ToolReg) (dag : WDag)
    (batches : List (List String)) (h : topologicalSort dag = Except.ok batches)
    (p : Event → Bool) :
    countEv p (gatewayEvents wid reg dag) =
      (if p (Event.start wid ((batches.map List.length).sum)) then 1 else 0)
      + countEv p (runBatches wid reg ((batches.map List.length).sum) batches
          dag.nodes [] 0).events
      + (if p Event.complete then 1 else 0) := by
  simp only [gatewayEvents, executeStreaming, h]
  rw [List.cons_append, countEv_cons, countEv_append]
  simp [countEv_cons, countEv_nil]
  omega

/-- C6 (amended): for every workflow accepted by validation, the gateway
stream holds exactly one `start` and exactly one `complete`, the number of
`node_completed` plus `node_failed` events is at most the plan's node count
n, and `workflow_completed` is emitted iff *all* n nodes completed (n
`node_completed` events and no `node_failed`) — the count reaching n alone
does not imply `workflow_completed`, since a failure at the last node also
brings the count to n. -/
theorem C6_amended (wid : String) (reg : ToolReg) (dag : WDag)
    (batches : List (List String)) (h : topologicalSort dag = Except.ok batches) :
    countEv isStart (gatewayEvents wid reg dag) = 1 ∧
    countEv isComplete (gatewayEvents wid reg dag) = 1 ∧
    countEv isNodeCompleted (gatewayEvents wid reg dag)
      + countEv isNodeFailed (gatewayEvents wid reg dag)
      ≤ (batches.map List.length).sum ∧
    (countEv isWorkflowCompleted (gatewayEvents wid reg dag) = 1 ↔
      (countEv isNodeCompleted (gatewayEvents wid reg dag)
          = (batches.map List.length).sum ∧
       countEv isNodeFailed (gatewayEvents wid reg dag) = 0)) := by
  have hclass := runBatches_class wid reg ((batches.map List.length).sum)
    batches dag.nodes [] 0
  refine ⟨?_, ?_, ?_, ?_⟩
  · rw [countEv_gateway wid reg dag batches h isStart]
    have h0 : countEv isStart (runBatches wid reg ((batches.map List.length).sum)
        batches dag.nodes [] 0).events = 0 :=
      countEv_zero_of_all _ _ (fun ev hev => (hclass ev hev).1)
    rw [h0]
    simp [isStart]
  · rw [countEv_gateway wid reg dag batches h isComplete]
    have h0 : countEv isComplete (runBatches wid reg ((batches.map List.length).sum)
        batches dag.nodes [] 0).events = 0 :=
      countEv_zero_of_all _ _ (fun ev hev => (hclass ev hev).2.1)
    rw [h0]
    simp [isComplete]
  · rw [countEv_gateway wid reg dag batches h isNodeCompleted,
      countEv_gateway wid reg dag batches h isNodeFailed]
    have hb := runBatches_bound wid reg ((batches.map List.length).sum)
      batches dag.nodes [] 0
    simp only [isNodeCompleted, isNodeFailed]
    simp
    omega
  · rw [countEv_gateway wid reg dag batches h isWorkflowCompleted,
      countEv_gateway wid reg dag batches h isNodeCompleted,
      countEv_gateway wid reg dag batches h isNodeFailed]
    simp only [isWorkflowCompleted, isNodeCompleted, isNodeFailed]
    simp
    cases hf : (runBatches wid reg ((batches.map List.length).sum)
        batches dag.nodes [] 0).failed with
    | false =>
      obtain ⟨hnf, hnc, hwc, _, _⟩ := runBatches_ok wid reg
        ((batches.map List.length).sum) batches dag.nodes [] 0 hf
      rw [hwc, hnc, hnf]
      simp
    | true =>
      obtain ⟨hwc, hnf, _, _⟩ := runBatches_fail wid reg
        ((batches.map List.length).sum) batches dag.nodes [] 0 hf
      rw [hwc, hnf]
      constructor
      · intro h1
        exact absurd h1 (by simp)
      · intro h2
        exact absurd h2.2 (by simp)

/-- A tool that always raises. -/
def boomTool : Tool :=
  { execute := fun _ => Except.error "boom",
    output_schema_required := [],
    output_schema_properties := [] }

/-- A single-node workflow whose only node fails. -/
def failDag : WDag := { nodes := [⟨"n1", "boom", none, []⟩], edges := [] }

/-- C6 (counterexample): with one node that fails, the workflow passes
validation with n = 1 and the stream counts one terminal node event
(`node_failed`), so `node_completed + node_failed = n`, yet no
`workflow_completed` is emitted — the claimed "count equals n iff
workflow_completed" equivalence fails in the only-if direction. -/
theorem C6_counterexample :
    topologicalSort failDag = Except.ok [["n1"]] ∧
    countEv isNodeCompleted (gatewayEvents "w" [("boom", boomTool)] failDag)
      + countEv isNodeFailed (gatewayEvents "w" [("boom", boomTool)] failDag)
      = 1 ∧
    countEv isWorkflowCompleted
      (gatewayEvents "w" [("boom", boomTool)] failDag) = 0 := by decide

/-- A single-node workflow whose node succeeds. -/
def okDag : WDag := { nodes := [⟨"m1", "echo", none, []⟩], edges := [] }

/-- C6 (witness): the amended statement instantiated on a one-node workflow
that succeeds. -/
theorem C6_amended_witness :
    countEv isStart (gatewayEvents "w" [("echo", echoTool)] okDag) = 1 ∧
    countEv isComplete (gatewayEvents "w" [("echo", echoTool)] okDag) = 1 ∧
    countEv isNodeCompleted (gatewayEvents "w" [("echo", echoTool)] okDag)
      + countEv isNodeFailed (gatewayEvents "w" [("echo", echoTool)] okDag)
      ≤ ([["m1"]].map List.length).sum ∧
    (countEv isWorkflowCompleted (gatewayEvents "w" [("echo", echoTool)] okDag) = 1 ↔
      (countEv isNodeCompleted (gatewayEvents "w" [("echo", echoTool)] okDag)
          = ([["m1"]].map List.length).sum ∧
       countEv isNodeFailed (gatewayEvents "w" [("echo", echoTool)] okDag) = 0)) :=
  C6_amended "w" [("echo", echoTool)] okDag [["m1"]] (by decide)

/-- C2 (counterexample): on a node failure the stream is `start`,
`node_failed`, `complete` — `workflow_failed` is *not* emitted between the
`node_failed` and the final `complete`, contradicting the claimed
`node_failed`, `workflow_failed`, `complete` sequence (on a node failure the
generator simply returns; `workflow_failed` exists only on the
pre-validation error path). -/
theorem C2_counterexample :
    gatewayEvents "w" [("boom", boomTool)] failDag =
      [Event.start "w" 1, Event.node_failed "n1" "boom", Event.complete] ∧
    countEv isWorkflowFailed
      (gatewayEvents "w" [("boom", boomTool)] failDag) = 0 := by decide

/-- C2 (amended): for every workflow accepted by validation, no
`workflow_failed` event is ever emitted and `complete` is the final gateway
event; if some node fails, the stream is a prefix without failures followed
by exactly one `node_failed` — the first failing node — directly before
`complete` (no `workflow_failed` in between), `workflow_completed` is not
emitted, and the started nodes are exactly the first k batches with the
failing node lying in the k-th batch, so no node of a batch after the
failing node's batch is ever started. -/
theorem C2_amended (wid : String) (reg : ToolReg) (dag : WDag)
    (batches : List (List String)) (h : topologicalSort dag = Except.ok batches) :
    countEv isWorkflowFailed (gatewayEvents wid reg dag) = 0 ∧
    (gatewayEvents wid reg dag).getLast? = some Event.complete ∧
    (1 ≤ countEv isNodeFailed (executeStreaming wid reg dag).events →
      ∃ pre nid e k,
        (executeStreaming wid reg dag).events = pre ++ [Event.node_failed nid e] ∧
        countEv isNodeFailed (executeStreaming wid reg dag).events = 1 ∧
        (∀ ev ∈ pre, isNodeFailed ev = false) ∧
        countEv isWorkflowCompleted (executeStreaming wid reg dag).events = 0 ∧
        gatewayEvents wid reg dag =
          pre ++ [Event.node_failed nid e, Event.complete] ∧
        1 ≤ k ∧ k ≤ batches.length ∧
        (executeStreaming wid reg dag).started = (batches.take k).flatten ∧
        nid ∈ batches.getD (k - 1) [] ∧
        nid ∈ (executeStreaming wid reg dag).started) := by
  have hclass := runBatches_class wid reg ((batches.map List.length).sum)
    batches dag.nodes [] 0
  have hexe : (executeStreaming wid reg dag).events =
      Event.start wid ((batches.map List.length).sum) ::
        (runBatches wid reg ((batches.map List.length).sum) batches
          dag.nodes [] 0).events := by
    simp [executeStreaming, h]
  have hsta : (executeStreaming wid reg dag).started =
      (runBatches wid reg ((batches.map List.length).sum) batches
        dag.nodes [] 0).started := by
    simp [executeStreaming, h]
  refine ⟨?_, ?_, ?_⟩
  · rw [countEv_gateway wid reg dag batches h isWorkflowFailed]
    have h0 : countEv isWorkflowFailed (runBatches wid reg
        ((batches.map List.length).sum) batches dag.nodes [] 0).events = 0 :=
      countEv_zero_of_all _ _ (fun ev hev => (hclass ev hev).2.2)
    rw [h0]
    simp [isWorkflowFailed]
  · simp [gatewayEvents]
  · intro hnf
    rw [hexe, countEv_cons] at hnf
    simp only [isNodeFailed] at hnf
    cases hf : (runBatches wid reg ((batches.map List.length).sum) batches
        dag.nodes [] 0).failed with
    | false =>
      exfalso
      obtain ⟨h0, _, _, _, _⟩ := runBatches_ok wid reg
        ((batches.map List.length).sum) batches dag.nodes [] 0 hf
      rw [h0] at hnf
      simp [isNodeFailed, isStart] at hnf
    | true =>
      obtain ⟨hwc, hnf1, ⟨pre, nid, e, k, hevs, hpre, hnid, hk1, hk2, hk3, hk4⟩,
        _⟩ :=
        runBatches_fail wid reg ((batches.map List.length).sum) batches
          dag.nodes [] 0 hf
      refine ⟨Event.start wid ((batches.map List.length).sum) :: pre, nid, e, k,
        ?_, ?_, ?_, ?_, ?_, hk1, hk2, by rw [hsta]; exact hk3, hk4,
        by rw [hsta]; exact hnid⟩
      · rw [hexe, hevs, List.cons_append]
      · rw [hexe, countEv_cons, hnf1]
        simp [isNodeFailed, isStart]
      · intro ev hev
        rcases List.mem_cons.mp hev with hv | hv
        · subst hv
          rfl
        · exact nc_not_nf ev (hpre ev hv)
      · rw [hexe, countEv_cons, hwc]
        simp [isWorkflowCompleted, isStart]
      · rw [gatewayEvents, hexe, hevs]
        simp

/-- C2 (witness): the amended statement's failure branch instantiated on the
one-node failing workflow. -/
theorem C2_amended_witness :
    ∃ pre nid e k,
      (executeStreaming "w2" [("boom", boomTool)] failDag).events =
        pre ++ [Event.node_failed nid e] ∧
      countEv isNodeFailed
        (executeStreaming "w2" [("boom", boomTool)] failDag).events = 1 ∧
      (∀ ev ∈ pre, isNodeFailed ev = false) ∧
      countEv isWorkflowCompleted
        (executeStreaming "w2" [("boom", boomTool)] failDag).events = 0 ∧
      gatewayEvents "w2" [("boom", boomTool)] failDag =
        pre ++ [Event.node_failed nid e, Event.complete] ∧
      1 ≤ k ∧ k ≤ [["n1"]].length ∧
      (executeStreaming "w2" [("boom", boomTool)] failDag).started =
        ([["n1"]].take k).flatten ∧
      nid ∈ [["n1"]].getD (k - 1) [] ∧
      nid ∈ (executeStreaming "w2" [("boom", boomTool)] failDag).started :=
  (C2_amended "w2" [("boom", boomTool)] failDag [["n1"]] (by decide)).2.2
    (by decide)
